import Mathlib

/-!
Shallow embedding of the charge-cycle detection and merging core of the
webike toolchain (`src/data/ChargeCycle.py`): the exponential smoother
`smooth`, the merge predicate `can_merge`, the two-pointer interval merger
`merge_cycles`, and the two cycle extractors `extract_cycles_curr` and
`extract_cycles_soc`.  Timestamps and time deltas are integers (seconds),
sensor readings and averages are rationals.  Python `assert` failures,
`ZeroDivisionError` and `TypeError` are modelled by `Option`, a raised
error being `none`.
-/

/-- A telemetry row as consumed by the extractors: the dict keys `Stamp`,
`ChargingCurr` and `soc_smooth` of one Python sample. -/
structure Sample where
  Stamp : ℤ
  ChargingCurr : ℚ
  soc_smooth : ℚ
deriving DecidableEq

/-- Python truthiness of an optional numeric attribute: `None`, a missing
key and the number `0` are all falsy. -/
def truthyO : Option ℚ → Bool
  | none => false
  | some x => decide (x ≠ 0)

/-- One step of `smooth` (ChargeCycle.py lines 53 to 72): `prev` is the
previous sample's smoothed attribute (`none` when there is no previous
sample, the smoothed key is missing, or its value is falsy is folded into
`truthyO`), `raw` the raw attribute of the current sample. -/
def smooth_step (alpha : ℚ) (default_value : Option ℚ) (prev raw : Option ℚ) : Option ℚ :=
  if !(truthyO raw) then
    if !(truthyO prev) then default_value else prev
  else
    if !(truthyO prev) then raw
    else some (alpha * prev.getD 0 + (1 - alpha) * raw.getD 0)

/-- The forward pass of `smooth` carrying the previous smoothed value. -/
def smooth_go (alpha : ℚ) (default_value : Option ℚ) :
    Option ℚ → List (Option ℚ) → List (Option ℚ)
  | _, [] => []
  | prev, raw :: rest =>
    smooth_step alpha default_value prev raw ::
      smooth_go alpha default_value (smooth_step alpha default_value prev raw) rest

/-- `smooth` of ChargeCycle.py, restricted to the one attribute being
smoothed: the list of raw values becomes the list of smoothed values. -/
def smooth (alpha : ℚ) (default_value : Option ℚ) (raws : List (Option ℚ)) : List (Option ℚ) :=
  smooth_go alpha default_value none raws

/-- Modelled from the spec: `webike/Preprocess.py` invokes
`webike.util.Utils.smooth` with `is_valid = smooth_reset_stale(timedelta(minutes=5))`,
but `webike/util/Utils.py` is not part of the source snapshot.  Following
the spec, section 4.1: if the raw value is present and the prior smoothed
value is missing or stale (timestamp gap above `window`), the smoothed
value restarts from the raw value; with a valid prior it is the
exponential combination; with the raw value absent the prior is carried
forward subject to the same staleness rule, else the default is used.
`prev` holds the previous sample's timestamp and smoothed value. -/
def smoothStale_step (alpha : ℚ) (window : ℤ) (default_value : Option ℚ)
    (prev : Option (ℤ × ℚ)) (stamp : ℤ) (raw : Option ℚ) : Option ℚ :=
  match raw, prev with
  | some r, some (ps, pv) =>
      if stamp - ps > window then some r
      else some (alpha * pv + (1 - alpha) * r)
  | some r, none => some r
  | none, some (ps, pv) =>
      if stamp - ps > window then default_value else some pv
  | none, none => default_value

/-- Modelled from the spec: the forward pass of the staleness-aware
smoother over `(timestamp, raw value)` rows. -/
def smoothStale_go (alpha : ℚ) (window : ℤ) (default_value : Option ℚ) :
    Option (ℤ × ℚ) → List (ℤ × Option ℚ) → List (Option ℚ)
  | _, [] => []
  | prev, (stamp, raw) :: rest =>
    smoothStale_step alpha window default_value prev stamp raw ::
      smoothStale_go alpha window default_value
        (match smoothStale_step alpha window default_value prev stamp raw with
         | some v => some (stamp, v)
         | none => none) rest

/-- Modelled from the spec: the staleness-aware smoother, started with no
history. -/
def smoothStale (alpha : ℚ) (window : ℤ) (default_value : Option ℚ)
    (samples : List (ℤ × Option ℚ)) : List (Option ℚ) :=
  smoothStale_go alpha window default_value none samples

/-- `can_merge` of ChargeCycle.py on two concrete intervals, reduced to
the only fields it reads: the `Stamp` of the start and end samples.
`none` models the `assert gap > timedelta(seconds=0)` failure. -/
def can_merge_pair (last_start last_end new_start new_end merge_within : ℤ) : Option Bool :=
  if max last_start new_start ≤ min last_end new_end then some true
  else if new_start - last_end ≤ 0 then none
  else if new_start - last_end > merge_within then some false
  else if new_end - new_start < new_start - last_end then some false
  else if last_end - last_start < new_start - last_end then some false
  else some true

/-- A cycle tuple as consumed and produced by `merge_cycles`:
`(start sample, end sample, sample count, metric, type)`, reduced to the
`Stamp` fields of the two samples, which are the only sample fields the
merger reads. -/
structure MCycle where
  startStamp : ℤ
  endStamp : ℤ
  count : ℤ
  metric : ℚ
  ctype : Char
deriving DecidableEq

/-- The merged tuple built at ChargeCycle.py lines 117 to 121: start of
the first, end of the second, summed counts, the time gap as metric. -/
def merge_two (first second : MCycle) : MCycle :=
  ⟨first.startStamp, second.endStamp, first.count + second.count,
    ((second.startStamp - first.endStamp : ℤ) : ℚ), 'M'⟩

/-- The `while` loop of `merge_cycles` with an explicit fuel argument so
the recursion is structural; `merge_cycles` supplies
`fuel = cycles_a.length + cycles_b.length`, which (one cursor advancing
per iteration) is never exhausted, so the fuel-out arm is unreachable.
Faithful to the source: only the cursor of the list `first` was drawn
from advances, also when the two cycles are merged. -/
def merge_go (merge_within : ℤ) : ℕ → List MCycle → List MCycle → Option (List MCycle)
  | _, [], bs => some bs
  | _, a :: as, [] => some (a :: as)
  | 0, _ :: _, _ :: _ => none
  | fuel + 1, a :: as, b :: bs =>
    if a.startStamp < b.startStamp then
      match can_merge_pair a.startStamp a.endStamp b.startStamp b.endStamp merge_within with
      | none => none
      | some true =>
          Option.map (fun rest => merge_two a b :: rest) (merge_go merge_within fuel as (b :: bs))
      | some false =>
          Option.map (fun rest => a :: rest) (merge_go merge_within fuel as (b :: bs))
    else
      match can_merge_pair b.startStamp b.endStamp a.startStamp a.endStamp merge_within with
      | none => none
      | some true =>
          Option.map (fun rest => merge_two b a :: rest) (merge_go merge_within fuel (a :: as) bs)
      | some false =>
          Option.map (fun rest => b :: rest) (merge_go merge_within fuel (a :: as) bs)

/-- `merge_cycles` of ChargeCycle.py lines 104 to 133. -/
def merge_cycles (cycles_a cycles_b : List MCycle) (merge_within : ℤ) : Option (List MCycle) :=
  merge_go merge_within (cycles_a.length + cycles_b.length) cycles_a cycles_b

/-- Total sample count of a cycle list, `sum(c[2] for c in cs)`. -/
def totalCount (cs : List MCycle) : ℤ :=
  (cs.map MCycle.count).sum

/-- Configuration of `extract_cycles_curr` (its keyword parameters). -/
structure CurrCfg where
  charge_thresh_start : ℚ
  charge_thresh_end : ℚ
  min_charge_samples : ℕ
  min_charge_amount : ℚ
  max_sample_delay : ℤ
  min_charge_time : ℤ

/-- A cycle produced by `extract_cycles_curr`:
`(charge_start, charge_end, charge_sample_count, charge_avg_curr)`. -/
structure CCycle where
  cstart : Sample
  cend : Sample
  count : ℕ
  avg : ℚ
deriving DecidableEq

/-- The `did charging stop?` decision of `extract_cycles_curr` lines 158
to 163: a drop below the stop threshold closes at the previous sample,
as does an inter-sample gap above `max_sample_delay`; `none` means the
cycle stays open. -/
def curr_charge_end (charge_thresh_end : ℚ) (max_sample_delay : ℤ)
    (prev s : Sample) : Option Sample :=
  if s.ChargingCurr < charge_thresh_end then some prev
  else if s.Stamp - prev.Stamp > max_sample_delay then some prev
  else none

/-- The sample loop of `extract_cycles_curr`; the charging state carries
`(charge_start, charge_sample_count, charge_avg_curr)`. -/
def curr_go (cfg : CurrCfg) :
    Sample → Option (Sample × ℕ × ℚ) → List CCycle → List CCycle →
    List Sample → List CCycle × List CCycle
  | _, _, acc, disc, [] => (acc, disc)
  | _, none, acc, disc, s :: rest =>
      curr_go cfg s
        (if s.ChargingCurr > cfg.charge_thresh_start then some (s, 1, s.ChargingCurr) else none)
        acc disc rest
  | prev, some (cs, n, avg), acc, disc, s :: rest =>
      match curr_charge_end cfg.charge_thresh_end cfg.max_sample_delay prev s with
      | none => curr_go cfg s (some (cs, n + 1, (avg + s.ChargingCurr) / 2)) acc disc rest
      | some ce =>
          if ce.Stamp - cs.Stamp > cfg.min_charge_time ∧ n > cfg.min_charge_samples ∧
              ce.soc_smooth - cs.soc_smooth > cfg.min_charge_amount then
            curr_go cfg s none (acc ++ [⟨cs, ce, n, avg⟩]) disc rest
          else
            curr_go cfg s none acc (disc ++ [⟨cs, ce, n, avg⟩]) rest

/-- `extract_cycles_curr` of ChargeCycle.py lines 136 to 184, returning
`(cycles, discarded_cycles)`.  The first sample is processed with an
empty charging state, in which the previous-sample argument is not read,
so it can be seeded with the first sample itself. -/
def extract_cycles_curr (cfg : CurrCfg) (charge_samples : List Sample) :
    List CCycle × List CCycle :=
  match charge_samples with
  | [] => ([], [])
  | s :: rest => curr_go cfg s none [] [] (s :: rest)

/-- Configuration of `extract_cycles_soc` (its keyword parameters).
`min_charge_samples` is rational because the running sample count of
this extractor can become rational through the tail-merge slip at
line 236 of the source. -/
structure SocCfg where
  derivate_span : ℕ
  charge_thresh_start : ℚ
  charge_thresh_end : ℚ
  min_charge_samples : ℚ
  max_sample_delay : ℤ
  min_charge_time : ℤ
  min_charge_amount : ℚ
  merge_within : ℤ

/-- A cycle produced by `extract_cycles_soc`:
`(charge_start, charge_end, charge_sample_count, charge_amount)`.  The
count field is rational: the in-place tail update at source line 236
stores `cycles[-1][3] + charge_sample_count` there, mixing the rational
metric into the count slot. -/
structure SCycle where
  cstart : Sample
  cend : Sample
  count : ℚ
  metric : ℚ
deriving DecidableEq

/-- Appending to `collections.deque(maxlen=span)`: the oldest elements
drop out on the left once the capacity is exceeded. -/
def deque_push (span : ℕ) (h : List ℚ) (x : ℚ) : List ℚ :=
  if span < (h ++ [x]).length then (h ++ [x]).drop ((h ++ [x]).length - span) else h ++ [x]

/-- The half-window average difference of ChargeCycle.py lines 206 to
209: `avg(h[l//2:l]) - avg(h[0:l//2])`; `none` models the
`ZeroDivisionError` raised when either half is empty. -/
def half_avg_diff (h : List ℚ) : Option ℚ :=
  if (h.take (h.length / 2)).length = 0 ∨ (h.drop (h.length / 2)).length = 0 then none
  else some ((h.drop (h.length / 2)).sum / ((h.drop (h.length / 2)).length : ℚ) -
             (h.take (h.length / 2)).sum / ((h.take (h.length / 2)).length : ℚ))

/-- The per-sample `soc_diff` of ChargeCycle.py lines 204 to 211: the
half-window average difference once the deque is full, 0 before. -/
def soc_diff_step (span : ℕ) (hist : List ℚ) : Option ℚ :=
  if span ≤ hist.length then half_avg_diff hist else some 0

/-- The `did charging stop?` decision of `extract_cycles_soc` lines 222
to 227: a derivative drop below the stop threshold closes at the current
sample `s`, an inter-sample gap above `max_sample_delay` closes at the
previous sample; `none` means the cycle stays open. -/
def soc_charge_end (charge_thresh_end : ℚ) (max_sample_delay : ℤ)
    (prev s : Sample) (diff : ℚ) : Option Sample :=
  if diff < charge_thresh_end then some s
  else if s.Stamp - prev.Stamp > max_sample_delay then some prev
  else none

/-- The accept-or-discard decision of `extract_cycles_soc` lines 245 to
254, applied after the optional merge with the discarded tail. -/
def soc_accept (cfg : SocCfg) (cycles discarded : List SCycle)
    (cs ce : Sample) (n : ℚ) : List SCycle × List SCycle :=
  if ce.Stamp - cs.Stamp > cfg.min_charge_time ∧ n > cfg.min_charge_samples ∧
      ce.soc_smooth - cs.soc_smooth > cfg.min_charge_amount then
    (cycles ++ [⟨cs, ce, n, ce.soc_smooth - cs.soc_smooth⟩], discarded)
  else
    (cycles, discarded ++ [⟨cs, ce, n, ce.soc_smooth - cs.soc_smooth⟩])

/-- Lines 238 to 254 of the source: try to merge the closing candidate
with the tail of the discarded list (pulling the start and count back and
dropping that tail) before the accept-or-discard decision.  `none` models
the `can_merge` assertion failure. -/
def soc_close_disc (cfg : SocCfg) (cycles discarded : List SCycle)
    (cs ce : Sample) (n : ℚ) : Option (List SCycle × List SCycle) :=
  match discarded.getLast? with
  | none => some (soc_accept cfg cycles discarded cs ce n)
  | some dtl =>
    match can_merge_pair dtl.cstart.Stamp dtl.cend.Stamp cs.Stamp ce.Stamp cfg.merge_within with
    | none => none
    | some true => some (soc_accept cfg cycles discarded.dropLast dtl.cstart ce (n + dtl.count))
    | some false => some (soc_accept cfg cycles discarded cs ce n)

/-- Lines 232 to 254 of the source: when the closing candidate can merge
with the tail of the accepted list, that tail is replaced in place by
`(tail.start, charge_end, tail.metric + count, soc delta)` (the source
reads index 3, the metric, where the sample count sits at index 2);
otherwise the discarded-tail merge and the accept decision run. -/
def soc_close (cfg : SocCfg) (cycles discarded : List SCycle)
    (cs ce : Sample) (n : ℚ) : Option (List SCycle × List SCycle) :=
  match cycles.getLast? with
  | none => soc_close_disc cfg cycles discarded cs ce n
  | some tl =>
    match can_merge_pair tl.cstart.Stamp tl.cend.Stamp cs.Stamp ce.Stamp cfg.merge_within with
    | none => none
    | some true =>
        some (cycles.dropLast ++
          [⟨tl.cstart, ce, tl.metric + n, ce.soc_smooth - tl.cstart.soc_smooth⟩], discarded)
    | some false => soc_close_disc cfg cycles discarded cs ce n

/-- The loop state of `extract_cycles_soc`: accepted and discarded lists,
the open charging state `(charge_start, charge_sample_count)`, and the
`soc_history` deque. -/
structure SocState where
  cycles : List SCycle
  discarded : List SCycle
  charging : Option (Sample × ℚ)
  hist : List ℚ

/-- One iteration of the `extract_cycles_soc` sample loop. -/
def soc_step (cfg : SocCfg) (prev s : Sample) (st : SocState) : Option SocState :=
  match soc_diff_step cfg.derivate_span (deque_push cfg.derivate_span st.hist s.soc_smooth) with
  | none => none
  | some diff =>
    match st.charging with
    | none =>
        some ⟨st.cycles, st.discarded,
          if diff > cfg.charge_thresh_start then some (s, 1) else none,
          deque_push cfg.derivate_span st.hist s.soc_smooth⟩
    | some (cs, n) =>
        match soc_charge_end cfg.charge_thresh_end cfg.max_sample_delay prev s diff with
        | none => some ⟨st.cycles, st.discarded, some (cs, n + 1),
            deque_push cfg.derivate_span st.hist s.soc_smooth⟩
        | some ce =>
            match soc_close cfg st.cycles st.discarded cs ce n with
            | none => none
            | some (cy, dc) => some ⟨cy, dc, none,
                deque_push cfg.derivate_span st.hist s.soc_smooth⟩

/-- The sample loop of `extract_cycles_soc`, carrying the previous
sample. -/
def soc_go (cfg : SocCfg) : Sample → SocState → List Sample →
    Option (List SCycle × List SCycle)
  | _, st, [] => some (st.cycles, st.discarded)
  | prev, st, s :: rest =>
    match soc_step cfg prev s st with
    | none => none
    | some st' => soc_go cfg s st' rest

/-- `extract_cycles_soc` of ChargeCycle.py lines 187 to 261, returning
`some (cycles, discarded_cycles)` or `none` when the run raises.  The
first sample is processed with an empty charging state, in which the
previous-sample argument is not read, so it can be seeded with the first
sample itself. -/
def extract_cycles_soc (cfg : SocCfg) (charge_samples : List Sample) :
    Option (List SCycle × List SCycle) :=
  match charge_samples with
  | [] => some ([], [])
  | s :: rest => soc_go cfg s ⟨[], [], none, []⟩ (s :: rest)

/-- The two single-interval merger inputs of the concrete spec scenario:
`(10, 20)` with one sample, current-based accepted. -/
def cycA : MCycle := ⟨10, 20, 1, 0, 'A'⟩

/-- The interval `(25, 40)` with one sample, SoC-based accepted. -/
def cycB : MCycle := ⟨25, 40, 1, 0, 'S'⟩

/-- Configuration of the concrete current-extractor scenario:
thresholds 50, `min_charge_samples = 1`, default `min_charge_amount`,
default ten-minute `max_sample_delay`, `min_charge_time` one minute. -/
def cfg4 : CurrCfg := ⟨50, 50, 1, 1/20, 600, 60⟩

/-- A SoC-extractor configuration with `derivate_span = 1`. -/
def cfg9 : SocCfg := ⟨1, 1/1000, 1/1000, 100, 600, 1800, 1/20, 1800⟩

/-- SoC-extractor configuration for the close-at-which-sample run:
span 2, zero thresholds, and a `min_charge_time` that discards the
candidate. -/
def cfgA : SocCfg := ⟨2, 0, 0, 1, 600, 1000, 1/10, 100⟩

/-- SoC-extractor configuration for the tail-merge run: span 2, zero
thresholds, small acceptance bounds, generous merge window. -/
def cfgB : SocCfg := ⟨2, 0, 0, 1, 600, 15, 1/10, 100⟩

/-- Samples for the close-at-which-sample run: the smoothed SoC rises
then drops at the last sample. -/
def aS0 : Sample := ⟨0, 0, 0⟩

def aS1 : Sample := ⟨10, 0, 1⟩

def aS2 : Sample := ⟨20, 0, 2⟩

def aS3 : Sample := ⟨30, 0, 1⟩

/-- Samples for the tail-merge run: two rising stretches separated by a
short dip, ten seconds apart. -/
def bS0 : Sample := ⟨0, 0, 0⟩

def bS1 : Sample := ⟨10, 0, 1⟩

def bS2 : Sample := ⟨20, 0, 2⟩

def bS3 : Sample := ⟨30, 0, 3⟩

def bS4 : Sample := ⟨40, 0, 2⟩

def bS5 : Sample := ⟨50, 0, 3⟩

def bS6 : Sample := ⟨60, 0, 4⟩

def bS7 : Sample := ⟨70, 0, 3⟩

/-- Claim C1: merge completeness fails in the code.  On the inputs
`[(10,20)]` and `[(25,40)]` with the default 30 minute merge window,
`merge_cycles` emits the merged cycle `(10,40)` but does not consume the
second interval, which is emitted again: the second interval is
represented twice and the total sample count of the output is 3 while
the inputs carry 2 samples. -/
theorem merge_cycles_double_counts :
    merge_cycles [cycA] [cycB] 1800 = some [⟨10, 40, 2, 5, 'M'⟩, cycB] ∧
    totalCount [⟨10, 40, 2, 5, 'M'⟩, cycB] = 3 ∧ totalCount [cycA, cycB] = 2 :=
  ⟨rfl, rfl, rfl⟩

/-- Claim C2: the non-overlap invariant fails in the code.  On the
sorted, non-overlapping inputs `[(10,20)]` and `[(25,40)]` the merged
output is `[(10,40), (25,40)]`, whose adjacent cycles overlap:
the first ends at 40, after the second starts at 25. -/
theorem merge_cycles_overlap_cex :
    merge_cycles [cycA] [cycB] 1800 = some [⟨10, 40, 2, 5, 'M'⟩, cycB] ∧
    ¬ ((⟨10, 40, 2, 5, 'M'⟩ : MCycle).endStamp ≤ cycB.startStamp) :=
  ⟨rfl, by decide⟩

/-- Claim C3: the concrete merger scenario.  With `merge_within = 10`
the output is the two-element list `[(10,40) merged, (25,40)]`, not the
claimed one-element `[(10,40)]`, because the absorbed second interval is
also emitted standalone; with `merge_within = 2` the two intervals stay
separate as claimed. -/
theorem merge_cycles_scenario :
    merge_cycles [cycA] [cycB] 10 = some [⟨10, 40, 2, 5, 'M'⟩, cycB] ∧
    merge_cycles [cycA] [cycB] 2 = some [cycA, cycB] :=
  ⟨rfl, rfl⟩

/-- Claim C4 (amended): on the samples
`[(0,5),(60,5),(120,55),(180,60),(240,5)]` with thresholds 50,
`min_charge_time = 60` and `min_charge_samples = 1`, and any smoothed
SoC values, the current-based extractor forms exactly one candidate
cycle spanning 120 to 180 with sample count 2 and running average 115/2,
and places it in the discarded list: acceptance requires the duration to
be strictly greater than `min_charge_time`, and 60 is not greater
than 60. -/
theorem extract_curr_scenario (q0 q1 q2 q3 q4 : ℚ) :
    extract_cycles_curr cfg4
        [⟨0, 5, q0⟩, ⟨60, 5, q1⟩, ⟨120, 55, q2⟩, ⟨180, 60, q3⟩, ⟨240, 5, q4⟩] =
      ([], [⟨⟨120, 55, q2⟩, ⟨180, 60, q3⟩, 2, 115/2⟩]) := by
  norm_num [extract_cycles_curr, curr_go, curr_charge_end, cfg4]

/-- Claim C4, counterexample to the claim as stated: on the scenario
samples, with smoothed SoC rising from 0 to 1 (so the SoC-increase
condition holds), the accepted list is empty, not a one-cycle list; the
cycle spanning 120 to 180 with sample count 2 sits in the discarded
list. -/
theorem extract_curr_scenario_cex :
    (extract_cycles_curr cfg4
        [⟨0, 5, 0⟩, ⟨60, 5, 0⟩, ⟨120, 55, 0⟩, ⟨180, 60, 1⟩, ⟨240, 5, 1⟩]).1 = [] ∧
    (extract_cycles_curr cfg4
        [⟨0, 5, 0⟩, ⟨60, 5, 0⟩, ⟨120, 55, 0⟩, ⟨180, 60, 1⟩, ⟨240, 5, 1⟩]).2 =
      [⟨⟨120, 55, 0⟩, ⟨180, 60, 1⟩, 2, 115/2⟩] := by
  constructor <;> norm_num [extract_cycles_curr, curr_go, curr_charge_end, cfg4]

/-- Claim C5: staleness reset of the spec-modelled smoother.  When the
gap between the current sample and the prior one exceeds the staleness
window, a present raw value re-initializes the smoothed attribute to the
raw value (no exponential combination with the stale prior), an absent
raw value falls back to the default, and the two-sample stream shows the
reset end to end. -/
theorem smoothStale_reset (alpha : ℚ) (window : ℤ) (default_value : Option ℚ)
    (ps st : ℤ) (pv r : ℚ) (hstale : st - ps > window) :
    smoothStale_step alpha window default_value (some (ps, pv)) st (some r) = some r ∧
    smoothStale_step alpha window default_value (some (ps, pv)) st none = default_value ∧
    smoothStale alpha window default_value [(ps, some pv), (st, some r)] = [some pv, some r] := by
  refine ⟨?_, ?_, ?_⟩ <;>
    simp [smoothStale, smoothStale_go, smoothStale_step, hstale]

/-- Claim C5, witness: a five-minute window, a 301 second gap. -/
theorem smoothStale_reset_witness :
    smoothStale (1/2) 300 (some 0) [(0, some 7), (301, some 4)] = [some 7, some 4] :=
  (smoothStale_reset (1/2) 300 (some 0) 0 301 7 4 (by decide)).2.2

/-- Claim C6 (amended): in the current-based extractor both the
threshold close and the timeout close end the cycle at the previous
sample; in the SoC-based extractor the threshold close ends the cycle at
the current, triggering sample, while the timeout close ends it at the
previous sample. -/
theorem close_at_sample_rules (charge_thresh_end : ℚ) (max_sample_delay : ℤ)
    (prev s : Sample) (diff : ℚ) :
    (s.ChargingCurr < charge_thresh_end →
      curr_charge_end charge_thresh_end max_sample_delay prev s = some prev) ∧
    (¬ s.ChargingCurr < charge_thresh_end → s.Stamp - prev.Stamp > max_sample_delay →
      curr_charge_end charge_thresh_end max_sample_delay prev s = some prev) ∧
    (diff < charge_thresh_end →
      soc_charge_end charge_thresh_end max_sample_delay prev s diff = some s) ∧
    (¬ diff < charge_thresh_end → s.Stamp - prev.Stamp > max_sample_delay →
      soc_charge_end charge_thresh_end max_sample_delay prev s diff = some prev) := by
  refine ⟨fun h => ?_, fun h1 h2 => ?_, fun h => ?_, fun h1 h2 => ?_⟩ <;>
    simp [curr_charge_end, soc_charge_end, *]

/-- Claim C6, witness: with stop threshold 50, the current-based close
yields the previous sample and the SoC-based close the current one. -/
theorem close_at_sample_rules_witness :
    curr_charge_end 50 600 aS0 aS1 = some aS0 ∧
    soc_charge_end 50 600 aS0 aS1 0 = some aS1 :=
  ⟨(close_at_sample_rules 50 600 aS0 aS1 0).1 (by decide),
   (close_at_sample_rules 50 600 aS0 aS1 0).2.2.1 (by decide)⟩

/-- Claim C6, counterexample to the claim as stated: a full SoC-based
run in which the derivative drops below the stop threshold at the sample
with stamp 30; the emitted cycle ends at that triggering sample, not at
the previous sample with stamp 20. -/
theorem soc_close_current_cex :
    extract_cycles_soc cfgA [aS0, aS1, aS2, aS3] = some ([], [⟨aS1, aS3, 2, 0⟩]) ∧
    (⟨aS1, aS3, 2, 0⟩ : SCycle).cend.Stamp = 30 ∧ aS2.Stamp = 20 := by
  refine ⟨?_, rfl, rfl⟩
  norm_num [extract_cycles_soc, soc_go, soc_step, soc_diff_step, deque_push, half_avg_diff,
    soc_charge_end, soc_close, soc_close_disc, soc_accept, can_merge_pair,
    cfgA, aS0, aS1, aS2, aS3]

/-- Claim C7: the adjacency merge into the accepted tail mixes up the
tuple slots.  After the first five samples the accepted tail is
`(bS1, bS4)` with sample count 3 and metric 1; the next candidate
carries sample count 2 and can merge with it.  The in-place update
stores `tail.metric + candidate count = 1 + 2 = 3` in the sample-count
slot, although the tail's previous sample count plus the candidate's is
`3 + 2 = 5`: the source reads `cycles[-1][3]`, the metric, instead of
`cycles[-1][2]`, the count. -/
theorem soc_merge_tail_bug :
    extract_cycles_soc cfgB [bS0, bS1, bS2, bS3, bS4] = some ([⟨bS1, bS4, 3, 1⟩], []) ∧
    extract_cycles_soc cfgB [bS0, bS1, bS2, bS3, bS4, bS5, bS6, bS7] =
      some ([⟨bS1, bS7, 3, 2⟩], []) := by
  constructor <;>
    norm_num [extract_cycles_soc, soc_go, soc_step, soc_diff_step, deque_push, half_avg_diff,
      soc_charge_end, soc_close, soc_close_disc, soc_accept, can_merge_pair,
      cfgB, bS0, bS1, bS2, bS3, bS4, bS5, bS6, bS7]

/-- Claim C8: the merge predicate.  Overlapping intervals always merge;
otherwise, with a strictly positive gap `new_start - last_end`, the
predicate holds exactly when the gap is at most `merge_within` and both
intervals last at least as long as the gap; and with a non-positive gap
the predicate fails with the ordering-violation assertion instead of
returning a result. -/
theorem can_merge_ok (ls le ns ne w : ℤ) :
    (max ls ns ≤ min le ne → can_merge_pair ls le ns ne w = some true) ∧
    (¬ max ls ns ≤ min le ne → 0 < ns - le →
      (can_merge_pair ls le ns ne w = some true ↔
        ns - le ≤ w ∧ ns - le ≤ ne - ns ∧ ns - le ≤ le - ls)) ∧
    (¬ max ls ns ≤ min le ne → ¬ 0 < ns - le → can_merge_pair ls le ns ne w = none) := by
  refine ⟨fun hov => ?_, fun hov hgap => ?_, fun hov hgap => ?_⟩
  · simp only [can_merge_pair, if_pos hov]
  · simp only [can_merge_pair, if_neg hov, if_neg (by omega : ¬ ns - le ≤ 0)]
    split_ifs with h1 h2 h3 <;> simp <;> omega
  · simp only [can_merge_pair, if_neg hov, if_pos (by omega : ns - le ≤ 0)]

/-- Claim C8, witness: the intervals `(10,20)` and `(25,40)` with window
10 do not overlap, have gap 5, and merge. -/
theorem can_merge_ok_witness :
    can_merge_pair 10 20 25 40 10 = some true :=
  ((can_merge_ok 10 20 25 40 10).2.1 (by decide) (by decide)).mpr (by decide)

/-- Claim C9 (amended): for every `derivate_span` of at least 2 the
derivative computation is total: the deque never exceeds its capacity,
the derivative is 0 while the deque holds fewer than `derivate_span`
values, and once the deque is full it is the average of the second half
minus the average of the first half, with both halves non-empty, so no
division by zero occurs. -/
theorem soc_diff_total (span : ℕ) (hist : List ℚ) (h2 : 2 ≤ span) :
    (∀ x : ℚ, (deque_push span hist x).length ≤ span) ∧
    (hist.length < span → soc_diff_step span hist = some 0) ∧
    (hist.length = span →
      soc_diff_step span hist =
        some ((hist.drop (hist.length / 2)).sum / ((hist.drop (hist.length / 2)).length : ℚ) -
              (hist.take (hist.length / 2)).sum / ((hist.take (hist.length / 2)).length : ℚ))) := by
  refine ⟨?_, ?_, ?_⟩
  · intro x
    unfold deque_push
    split
    · simp only [List.length_drop, List.length_append, List.length_cons, List.length_nil]
      omega
    · rename_i hle
      simp only [List.length_append, List.length_cons, List.length_nil] at hle ⊢
      omega
  · intro hlt
    simp only [soc_diff_step, if_neg (Nat.not_le.mpr hlt)]
  · intro heq
    have hs : span ≤ hist.length := le_of_eq heq.symm
    have hne : ¬ ((hist.take (hist.length / 2)).length = 0 ∨
        (hist.drop (hist.length / 2)).length = 0) := by
      simp only [List.length_take, List.length_drop]
      omega
    simp only [soc_diff_step, half_avg_diff, if_pos hs, if_neg hne]

/-- Claim C9, witness: span 2, a full window `[1, 3]`, derivative 2. -/
theorem soc_diff_total_witness :
    (2:ℕ) ≤ 2 ∧ soc_diff_step 2 [(1:ℚ), 3] = some 2 := by
  refine ⟨by decide, ?_⟩
  have h := (soc_diff_total 2 [(1:ℚ), 3] (by decide)).2.2 (by decide)
  rw [h]
  norm_num

/-- Claim C9, counterexample to the claim as stated: with
`derivate_span = 1` the first half of the full one-element window is
empty and the very first sample makes the extraction divide by zero
(the run raises instead of producing cycle lists). -/
theorem soc_span1_divzero :
    extract_cycles_soc cfg9 [⟨0, 0, 0⟩] = none :=
  rfl

/-- Claim C10: a raw value of 0 is treated exactly like an absent value:
the smoothing step gives the same result on `some 0` as on `none`, a
truthy prior smoothed value is carried forward unchanged, the default is
used when no prior exists, and a whole tail of zero or absent raw values
leaves the smoothed attribute constant. -/
theorem smooth_zero_absent (alpha : ℚ) (default_value prev : Option ℚ) :
    smooth_step alpha default_value prev (some 0) = smooth_step alpha default_value prev none ∧
    (∀ p : ℚ, p ≠ 0 → smooth_step alpha default_value (some p) (some 0) = some p) ∧
    smooth_step alpha default_value none (some 0) = default_value ∧
    (∀ p : ℚ, p ≠ 0 → ∀ zs : List (Option ℚ), (∀ z ∈ zs, z = some 0 ∨ z = none) →
      smooth_go alpha default_value (some p) zs = zs.map fun _ => some p) := by
  refine ⟨rfl, fun p hp => ?_, rfl, fun p hp zs hzs => ?_⟩
  · simp [smooth_step, truthyO, hp]
  · induction zs with
    | nil => rfl
    | cons z zs ih =>
      have hz := hzs z (List.mem_cons_self z zs)
      have hstep : smooth_step alpha default_value (some p) z = some p := by
        rcases hz with h | h <;> subst h <;> simp [smooth_step, truthyO, hp]
      simp only [smooth_go, hstep, List.map_cons]
      exact congrArg _ (ih fun z hzmem => hzs z (List.mem_cons_of_mem _ hzmem))

/-- Claim C10, witness: with a prior smoothed value 5, a zero raw value
and an absent raw value both leave the smoothed stream at 5. -/
theorem smooth_zero_absent_witness :
    smooth_step (1/2) (some 9) (some 5) (some 0) = some 5 ∧
    smooth_go (1/2) (some 9) (some 5) [some 0, none] = [some 5, some 5] := by
  refine ⟨(smooth_zero_absent (1/2) (some 9) (some 5)).2.1 5 (by decide), ?_⟩
  have h := (smooth_zero_absent (1/2) (some 9) (some 5)).2.2.2 5 (by decide)
    [some 0, none] (by decide)
  simpa using h
